import Mathlib

/-!
Verification development for the AI-analysis adapter `analyzeFoodWaste`
(file `src/unnamed/part_000` of the food-waste-reducer repository).

The adapter is shallowly embedded: JSON values parsed from the model
response become `JsonVal`; the mutable JS object that `analyzeFoodWaste`
normalizes and returns becomes `JsObject`; the remote endpoints
(`fetch` of the model catalog, `generateContent`, `JSON.parse`,
`readFileSync`) become oracle fields of `AnalyzeEnv`, so one invocation
of the adapter is a pure function of its environment.  JS runtime
behaviour that the code relies on (truthiness, the `+` operator used by
the `reduce` at line 165, `TypeError`s raised by property access on
primitives in strict module code) is modelled explicitly.
-/

namespace FW

/-- The open-brace character, written via its code point so that brace
characters never appear literally in this file. -/
def lb : Char := Char.ofNat 123

/-- The close-brace character. -/
def rb : Char := Char.ofNat 125

/-- The single-quote character used by V8 TypeError messages. -/
def sqc : Char := Char.ofNat 39

/-- Wrap a string in single quotes, as V8 error messages do. -/
def sq (s : String) : String := String.mk [sqc] ++ s ++ String.mk [sqc]

/-- Substring test on char lists: JS `String.prototype.includes`. -/
def hasSubL (pat : List Char) : List Char → Bool
  | [] => pat.isEmpty
  | a :: rest => pat.isPrefixOf (a :: rest) || hasSubL pat rest

/-- JS `s.includes(pat)`. -/
def hasSub (pat s : String) : Bool := hasSubL pat.data s.data

/-- A JSON value, as produced by `JSON.parse` on the model response. -/
inductive JsonVal where
  | null
  | bool (b : Bool)
  | num (q : Rat)
  | str (s : String)
  | arr (elems : List JsonVal)
  | obj (fields : List (String × JsonVal))

/-- JS truthiness of a value (used by `!analysis.items`,
`if (data.models)`, `item.estimatedValue || 0`,
`!analysis.estimatedWaste`).  `undefined` is handled at use sites as
`Option.none`. -/
def truthy : JsonVal → Bool
  | .null => false
  | .bool b => b
  | .num q => decide (q ≠ 0)
  | .str s => decide (s ≠ "")
  | .arr _ => true
  | .obj _ => true

/-- Property lookup in a JS object field list (first match). -/
def getKey (fs : List (String × JsonVal)) (k : String) : Option JsonVal :=
  match fs with
  | [] => none
  | (k2, v) :: rest => if k2 = k then some v else getKey rest k

/-- Decimal digits of the fractional part `rem / den`, fuel-bounded
long division.  Models the decimal expansion JS prints for the number
range JSON payloads carry (doubles print at most 17 significant digits,
so fuel 20 is exact there; exponent notation for extreme magnitudes is
not modelled because no claim depends on it). -/
def fracDigitsNat : Nat → Nat → Nat → String
  | 0, _, _ => ""
  | fuel + 1, rem, den =>
    if rem = 0 then ""
    else Nat.repr (rem * 10 / den) ++ fracDigitsNat fuel (rem * 10 % den) den

/-- JS `String(n)` for a number, computed from the reduced
numerator/denominator to stay kernel-evaluable. -/
def jsNumToString (q : Rat) : String :=
  (if q.num < 0 then "-" else "") ++
    (let n := q.num.natAbs
     let d := q.den
     if n % d = 0 then Nat.repr (n / d)
     else Nat.repr (n / d) ++ "." ++ fracDigitsNat 20 (n % d) d)

mutual

/-- JS `String(v)` / `ToString` of a value:  `Array.prototype.toString`
joins elements with commas, objects render as the `[object Object]`
tag. -/
def jsToString : JsonVal → String
  | .null => "null"
  | .bool b => if b then "true" else "false"
  | .num q => jsNumToString q
  | .str s => s
  | .arr es => jsArrJoin es
  | .obj _ => "[object Object]"

/-- `Array.prototype.join(",")`: `null` elements render as the empty
string. -/
def jsArrJoin : List JsonVal → String
  | [] => ""
  | [JsonVal.null] => ""
  | [x] => jsToString x
  | JsonVal.null :: xs => "," ++ jsArrJoin xs
  | x :: xs => jsToString x ++ "," ++ jsArrJoin xs

end

/-- `ToPrimitive` as used by JS `+`: arrays and plain objects convert
via their default `toString`. -/
def jsToPrimitive : JsonVal → JsonVal
  | .arr es => .str (jsArrJoin es)
  | .obj _ => .str "[object Object]"
  | v => v

/-- `ToNumber` on the primitives that can reach the numeric branch of
`+` (after `jsToPrimitive`, string operands take the concatenation
branch, so the string/array/object rows are unreachable there). -/
def toNumber : JsonVal → Rat
  | .null => 0
  | .bool b => if b then 1 else 0
  | .num q => q
  | _ => 0

/-- The JS binary `+` used by the `reduce` at line 165:
`sum + (item.estimatedValue || 0)`. -/
def jsAdd (x y : JsonVal) : JsonVal :=
  match jsToPrimitive x, jsToPrimitive y with
  | .str a, b => .str (a ++ jsToString b)
  | a, .str b => .str (jsToString a ++ b)
  | a, b => .num (toNumber a + toNumber b)

/-- The runtime value `analyzeFoodWaste` mutates and returns.  A JS
array is an object too, so named properties can be assigned on it; the
canonical record is therefore a possibly-array object carrying element
list and named properties. -/
structure JsObject where
  isArr : Bool
  elems : List JsonVal
  props : List (String × JsonVal)

/-- Property read `o.k`; `none` is JS `undefined`. -/
def getProp (o : JsObject) (k : String) : Option JsonVal := getKey o.props k

/-- Property assignment on a field list: overwrite in place or append. -/
def setEntry (k : String) (v : JsonVal) : List (String × JsonVal) → List (String × JsonVal)
  | [] => [(k, v)]
  | (k2, v2) :: rest => if k2 = k then (k, v) :: rest else (k2, v2) :: setEntry k v rest

/-- Property assignment `o.k = v`. -/
def setProp (o : JsObject) (k : String) (v : JsonVal) : JsObject :=
  { o with props := setEntry k v o.props }

/-- Convert a parsed JSON value into the runtime object normalization
works on; primitives are rejected at their first throwing access. -/
def toObj : JsonVal → Option JsObject
  | .arr es => some (JsObject.mk true es [])
  | .obj fs => some (JsObject.mk false [] fs)
  | _ => none

/-- V8 message for reading a property of `null`. -/
def nullReadMsg (k : String) : String :=
  "Cannot read properties of null (reading " ++ sq k ++ ")"

/-- V8 message for `analysis.items = []` on a primitive in strict
module code. -/
def createOnPrimMsg (ty val : String) : String :=
  "Cannot create property " ++ sq "items" ++ " on " ++ ty ++ " " ++ sq val

/-- The strict-mode TypeError produced when the parsed value is a
primitive: `null` throws at the property read (line 160), the other
primitives throw at the property assignment. -/
def primCreateMsg : JsonVal → Option String
  | .null => some (nullReadMsg "items")
  | .bool b => some (createOnPrimMsg "boolean" (if b then "true" else "false"))
  | .num q => some (createOnPrimMsg "number" (jsNumToString q))
  | .str s => some (createOnPrimMsg "string" s)
  | _ => none

/-- `item.estimatedValue` inside the reduce callback: `null` items
throw, object items yield the field, every other item boxes and yields
`undefined`. -/
def readEstimatedValue : JsonVal → Except String (Option JsonVal)
  | .null => .error (nullReadMsg "estimatedValue")
  | .obj fs => .ok (getKey fs "estimatedValue")
  | _ => .ok none

/-- Lines 165-168: `items.reduce((sum, item) => sum + (item.estimatedValue || 0), 0)`. -/
def jsReduceSum (acc : JsonVal) : List JsonVal → Except String JsonVal
  | [] => .ok acc
  | item :: rest =>
    match readEstimatedValue item with
    | .error m => .error m
    | .ok ev =>
      let arg := match ev with
        | some v => if truthy v then v else JsonVal.num 0
        | none => JsonVal.num 0
      jsReduceSum (jsAdd acc arg) rest

/-- Is this (possibly absent) value a JS array? -/
def isArrayValOpt : Option JsonVal → Bool
  | some (.arr _) => true
  | _ => false

/-- Is this (possibly absent) value a JS `number`?  This is
`typeof v === "number"` on a read property. -/
def isNumOpt : Option JsonVal → Bool
  | some (.num _) => true
  | _ => false

/-- Truthiness of a possibly-absent value (`undefined` is falsy). -/
def truthyOpt : Option JsonVal → Bool
  | some v => truthy v
  | none => false

/-- The default `estimatedWaste` object (lines 172-175). -/
def wasteDefault : JsonVal :=
  .obj [( "weight", .str "unknown"), ( "percentage", .str "unknown")]

/-- Lines 160-162: coerce a missing or non-array `items` to `[]`
(arrays are truthy, so the condition collapses to `!Array.isArray`). -/
def step1 (o : JsObject) : JsObject :=
  if isArrayValOpt (getProp o "items") then o else setProp o "items" (.arr [])

/-- The element list the reduce runs over (after `step1` this is the
normalized `items` array). -/
def itemsOf (o : JsObject) : List JsonVal :=
  match getProp o "items" with
  | some (.arr l) => l
  | _ => []

/-- Lines 164-169: keep a `number`-typed `totalEstimatedValue`
(`typeof analysis.totalEstimatedValue !== "number"` guards), otherwise
recompute it by the reduce (which can throw on `null` items). -/
def step2 (o : JsObject) : Except String JsObject :=
  if isNumOpt (getProp o "totalEstimatedValue") then .ok o
  else
    match jsReduceSum (.num 0) (itemsOf o) with
    | .ok s => .ok (setProp o "totalEstimatedValue" s)
    | .error m => .error m

/-- Lines 171-176: replace a falsy (in particular absent)
`estimatedWaste` by the default object. -/
def step3 (o : JsObject) : JsObject :=
  if truthyOpt (getProp o "estimatedWaste") then o
  else setProp o "estimatedWaste" wasteDefault

/-- Lines 160-178 on a non-primitive parsed value. -/
def normalizeSteps (o : JsObject) : Except String JsObject :=
  match step2 (step1 o) with
  | .ok o2 => .ok (step3 o2)
  | .error m => .error m

/-- The whole normalization stage applied to the parsed JSON value. -/
def normalizeAnalysis (v : JsonVal) : Except String JsObject :=
  match toObj v with
  | some o => normalizeSteps o
  | none =>
    match primCreateMsg v with
    | some m => .error m
    | none => .error ""

/-! ### Stage 4: tolerant JSON extraction (lines 144-157)

The regex `/\x7b[\s\S]*\x7d/` matches, greedily, from the first open
brace of the text through the last close brace that follows it; if no
close brace follows any open brace there is no match and the whole text
is parsed verbatim.  `JSON.parse` itself is a platform primitive, so it
enters the model as an oracle `parse : String → Option JsonVal`
(`none` = `SyntaxError`). -/

/-- The first-brace-to-last-brace span of a char list: drop up to the
first open brace, then drop the reversed tail up to the last close
brace.  Empty result means the regex does not match. -/
def braceSpanL (l : List Char) : Option (List Char) :=
  let l1 := l.dropWhile (fun c => c != lb)
  let l2 := (l1.reverse.dropWhile (fun c => c != rb)).reverse
  if l2.isEmpty then none else some l2

/-- The span `content.match(/\x7b[\s\S]*\x7d/)` selects, if any. -/
def braceSpan (s : String) : Option String :=
  (braceSpanL s.data).map String.mk

/-- What the parse failure leaves behind: the raw response text goes to
`console.error` (line 155), the thrown error carries only the fixed
message (line 156). -/
structure ParseFailure where
  loggedContent : String
  message : String
deriving DecidableEq, Repr

/-- Line 156: the fixed message of the parse-failure error. -/
def parseFailMsg : String :=
  "Failed to parse AI response. The AI did not return valid JSON."

/-- Lines 144-157: parse the brace span when the regex matches,
otherwise the whole text; on failure log the content and throw the
fixed message. -/
def extractAnalysis (parse : String → Option JsonVal) (content : String) :
    Except ParseFailure JsonVal :=
  match braceSpan content with
  | some span =>
    match parse span with
    | some v => .ok v
    | none => .error (ParseFailure.mk content parseFailMsg)
  | none =>
    match parse content with
    | some v => .ok v
    | none => .error (ParseFailure.mk content parseFailMsg)

/-- A markdown code fence around a response text. -/
def fenceWrap (t : String) : String := "```json\n" ++ t ++ "\n```"

/-! ### Stage 2: model discovery (lines 56-91) -/

/-- What the catalog request produced, as observed by the `try` block:
the `fetch` itself may throw, `response.ok` may be false, `.json()` may
throw, or a JSON body arrives. -/
inductive CatalogOutcome where
  | fetchThrow (msg : String)
  | notOk
  | jsonThrow (msg : String)
  | payload (body : JsonVal)

/-- `data.models` (line 63): reading the field of `null` throws, a
non-object body boxes to `undefined`. -/
def readModelsField : JsonVal → Except String (Option JsonVal)
  | .null => .error (nullReadMsg "models")
  | .obj fs => .ok (getKey fs "models")
  | _ => .ok none

/-- JS `s.replace(pat, "")` for a plain-string pattern: remove the
first occurrence only. -/
def replaceFirstL (pat : List Char) : List Char → List Char
  | [] => []
  | a :: rest =>
    if pat.isPrefixOf (a :: rest) then (a :: rest).drop pat.length
    else a :: replaceFirstL pat rest

/-- Line 64: `m.name.replace("models/", "")`. -/
def stripModelsTag (s : String) : String :=
  String.mk (replaceFirstL ( "models/").data s.data)

/-- Line 64 per catalog entry: `m => m.name.replace(...)`; entries
whose `name` is missing or not a string make the `map` callback throw
(the error is swallowed by the surrounding `catch`). -/
def mapEntryName : JsonVal → Except String String
  | .null => .error (nullReadMsg "name")
  | .obj fs =>
    match getKey fs "name" with
    | some (.str s) => .ok (stripModelsTag s)
    | some .null => .error (nullReadMsg "replace")
    | some _ => .error "m.name.replace is not a function"
    | none => .error ( "Cannot read properties of undefined (reading " ++ sq "replace" ++ ")")
  | _ => .error ( "Cannot read properties of undefined (reading " ++ sq "replace" ++ ")")

/-- The body of the discovery `try` (lines 58-67): any `.error` here is
caught at line 68 and leaves `availableModels` empty. -/
def discoveryAttempt : CatalogOutcome → Except String (List String)
  | .fetchThrow m => .error m
  | .notOk => .ok []
  | .jsonThrow m => .error m
  | .payload body => do
    let mf ← readModelsField body
    match mf with
    | none => .ok []
    | some v =>
      if truthy v then
        match v with
        | .arr entries => entries.mapM mapEntryName
        | _ => .error "data.models.map is not a function"
      else .ok []

/-- `availableModels` after the try/catch (lines 57-70): discovery
failures are absorbed and leave the list empty. -/
def availableModels (c : CatalogOutcome) : List String :=
  match discoveryAttempt c with
  | .ok l => l
  | .error _ => []

/-- Line 88: the static ordered fallback list. -/
def staticModels : List String :=
  [ "gemini-pro-vision", "gemini-pro", "gemini-1.5-pro",
    "gemini-1.5-flash", "gemini-1.5-flash-001"]

/-- The substring heuristic of line 81-83. -/
def visionName (n : String) : Bool :=
  (hasSub "pro" n || hasSub "flash" n) && !hasSub "embedding" n

/-- Lines 76-89: the candidate list the fallback loop iterates. -/
def modelCandidates (c : CatalogOutcome) : List String :=
  let av := availableModels c
  if av.length > 0 then
    let vision := av.filter visionName
    if vision.length > 0 then vision else av.take 3
  else staticModels

/-- Modelled from the spec (§4.3, stage 2), for the refinement claim
C8: on a successful catalog query with a non-empty identifier list,
filter to vision-suggesting names, falling back to the first three
entries when the filter is empty; on any failure — network error,
non-success status, malformed payload, empty list — use the static
ordered fallback list. -/
def discoverySpec (c : CatalogOutcome) : List String :=
  match discoveryAttempt c with
  | .ok [] => staticModels
  | .error _ => staticModels
  | .ok names =>
    let vision := names.filter visionName
    if vision = [] then names.take 3 else vision

/-! ### Stage 3: the fallback generation loop (lines 93-140) -/

/-- Outcome of the loop: the first successful response text, the last
recorded error, and the candidates actually invoked, in order. -/
structure LoopResult where
  content : Option String
  lastError : Option String
  attempts : List String
deriving DecidableEq, Repr

/-- Lines 98-135: try each candidate in order; the generation oracle
receives the model name and the `responseMimeType: application/json`
flag that line 109 sets exactly for names containing `1.5`.  First
success breaks the loop; a failure records `lastError` and continues. -/
def runLoop (gen : String → Bool → Except String String) :
    List String → Option String → LoopResult
  | [], le => LoopResult.mk none le []
  | n :: rest, le =>
    match gen n (hasSub "1.5" n) with
    | .ok t => LoopResult.mk (some t) le [n]
    | .error e =>
      let r := runLoop gen rest (some e)
      LoopResult.mk r.content r.lastError (n :: r.attempts)

/-- JS `names.join(", ")` as line 139 uses it. -/
def joinComma : List String → String
  | [] => ""
  | [n] => n
  | n :: rest => n ++ ", " ++ joinComma rest

/-- Line 139: the aggregate error when no candidate produced content.
An empty last message is falsy, so it also prints as unknown. -/
def aggregateMsg (names : List String) (lastError : Option String) : String :=
  let lastTxt := match lastError with
    | some m => if m = "" then "Unknown error" else m
    | none => "Unknown error"
  "All model attempts failed. Last error: " ++ lastTxt ++
    ". Tried models: " ++ joinComma names

/-! ### Error classification (lines 179-198) -/

/-- The user-facing error kinds of spec §4.2; the code distinguishes
them only by the replacement message it throws. -/
inductive ErrKind where
  | invalidCredential
  | quotaExceeded
  | accessForbidden
  | invalidRequest
  | sourceImageNotFound
  | configurationError
  | genericFailure
deriving DecidableEq, Repr

/-- Line 184 replacement message. -/
def invalidKeyMsg : String :=
  "Invalid Gemini API key. Please check your .env file and ensure GEMINI_API_KEY is set correctly. Get your key at https://aistudio.google.com/app/apikey"

/-- Line 186 replacement message. -/
def quotaMsg : String :=
  "Gemini API quota exceeded. Please check your Google Cloud billing and add credits. Visit https://console.cloud.google.com/ to manage your quota."

/-- Line 188 replacement message. -/
def forbiddenMsg : String :=
  "Gemini API access forbidden. Please check your API key permissions and enable the Generative AI API in Google Cloud Console."

/-- Line 190 replacement message. -/
def invalidRequestMsg : String :=
  "Invalid request to Gemini API. Please check the image format and try again."

/-- Line 192 replacement message. -/
def imageNotFoundMsg : String :=
  "Image file not found. Please try uploading again."

/-- Line 17: the configuration-missing message. -/
def configMissingMsg : String :=
  "GEMINI_API_KEY is not set in your .env file. Please add it."

/-- Lines 183-197: substring classification of the caught message, in
source order.  Note the config-missing re-raise of line 193 sits after
the API_KEY check of line 183. -/
def classify (msg : String) : ErrKind × String :=
  if hasSub "API_KEY" msg then (.invalidCredential, invalidKeyMsg)
  else if hasSub "quota" msg || hasSub "429" msg then (.quotaExceeded, quotaMsg)
  else if hasSub "403" msg || hasSub "PERMISSION_DENIED" msg then (.accessForbidden, forbiddenMsg)
  else if hasSub "400" msg || hasSub "INVALID_ARGUMENT" msg then (.invalidRequest, invalidRequestMsg)
  else if hasSub "ENOENT" msg then (.sourceImageNotFound, imageNotFoundMsg)
  else if hasSub "GEMINI_API_KEY is not set" msg then (.configurationError, msg)
  else (.genericFailure, "AI analysis failed: " ++ (if msg = "" then "Unknown error occurred" else msg))

/-- True when the message matches none of the classification
substrings, so the generic branch preserves it. -/
def keywordFree (m : String) : Bool :=
  !hasSub "API_KEY" m && !hasSub "quota" m && !hasSub "429" m &&
  !hasSub "403" m && !hasSub "PERMISSION_DENIED" m &&
  !hasSub "400" m && !hasSub "INVALID_ARGUMENT" m &&
  !hasSub "ENOENT" m && !hasSub "GEMINI_API_KEY is not set" m

/-! ### The adapter pipeline (lines 14-199) -/

/-- The failure carried out of the `try` body: the message the `catch`
classifies, plus the raw response text that the parse stage wrote to
`console.error` (and nothing else captures). -/
structure Failure where
  message : String
  loggedText : Option String
deriving DecidableEq, Repr

/-- One network interaction of a single invocation. -/
inductive NetCall where
  | catalogQuery
  | generate (model : String)
deriving DecidableEq, Repr

/-- The external world of one invocation: the credential, the
`readFileSync` outcome, the catalog response, the generation endpoint,
and `JSON.parse`. -/
structure AnalyzeEnv where
  apiKey : String
  readResult : Except String String
  catalog : CatalogOutcome
  gen : String → Bool → Except String String
  parse : String → Option JsonVal

/-- Stages 4-5 on a successful response text (lines 142-178). -/
def analyzeTail (parse : String → Option JsonVal) (content : String) :
    Except Failure JsObject :=
  match extractAnalysis parse content with
  | .error pf => .error (Failure.mk pf.message (some pf.loggedContent))
  | .ok analysis =>
    match normalizeAnalysis analysis with
    | .error m => .error (Failure.mk m none)
    | .ok res => .ok res

/-- The `try` body of `analyzeFoodWaste` (lines 15-178), paired with
the network calls it issued: the credential check precedes all I/O,
then the file read, then the catalog query, then one generation call
per attempted candidate.  Line 138 guards with `if (!modelContent)` — a
JS falsiness check — so the aggregate error is raised both when no
candidate succeeded (`modelContent` still `null`) and when the first
success carried the empty text `""` (falsy), even though the loop had
already stopped. -/
def analyzeCore (env : AnalyzeEnv) : Except Failure JsObject × List NetCall :=
  if env.apiKey = "" then (.error (Failure.mk configMissingMsg none), [])
  else
    match env.readResult with
    | .error m => (.error (Failure.mk m none), [])
    | .ok _ =>
      let names := modelCandidates env.catalog
      let r := runLoop env.gen names none
      let calls := NetCall.catalogQuery :: r.attempts.map NetCall.generate
      match r.content with
      | none => (.error (Failure.mk (aggregateMsg names r.lastError) none), calls)
      | some content =>
        if content = "" then
          (.error (Failure.mk (aggregateMsg names r.lastError) none), calls)
        else (analyzeTail env.parse content, calls)

/-- `analyzeFoodWaste` as observed by its caller: the `catch` of lines
179-198 maps every failure message through `classify`. -/
def analyzeFoodWaste (env : AnalyzeEnv) :
    Except (ErrKind × String) JsObject × List NetCall :=
  match analyzeCore env with
  | (.ok r, cs) => (.ok r, cs)
  | (.error f, cs) => (.error (classify f.message), cs)

/-! ### Spec-side vocabulary for the claims -/

/-- An item whose contribution to the reduce stays numeric: it is not
`null` (which would throw) and its `estimatedValue`, when present, is a
number.  Non-object items box and contribute zero. -/
def itemOkB : JsonVal → Bool
  | .null => false
  | .obj g =>
    match getKey g "estimatedValue" with
    | none => true
    | some (.num _) => true
    | some _ => false
  | _ => true

/-- The numeric value one item adds: its `estimatedValue` when that is
a number, zero otherwise (absent values in particular). -/
def itemContribution : JsonVal → Rat
  | .obj g =>
    match getKey g "estimatedValue" with
    | some (.num q) => q
    | _ => 0
  | _ => 0

/-- The sum of the per-item estimated values, missing values as zero. -/
def sumContributions (l : List JsonVal) : Rat :=
  l.foldr (fun it acc => itemContribution it + acc) 0

/-! ### Concrete environments used by counterexamples and witnesses -/

/-- An environment with the credential unset. -/
def envNoKey : AnalyzeEnv :=
  AnalyzeEnv.mk "" (.ok "img") .notOk (fun _ _ => .error "offline") (fun _ => none)

/-- Every candidate fails with a rate-limit message. -/
def envAllFail429 : AnalyzeEnv :=
  AnalyzeEnv.mk "key" (.ok "img") .notOk (fun _ _ => .error "429") (fun _ => none)

/-- Every candidate fails with a keyword-free message. -/
def envAllFailBoom : AnalyzeEnv :=
  AnalyzeEnv.mk "key" (.ok "img") .notOk (fun _ _ => .error "boom") (fun _ => none)

/-- The model responds with prose that is not JSON at all. -/
def envProse : AnalyzeEnv :=
  AnalyzeEnv.mk "key" (.ok "img") .notOk (fun _ _ => .ok "hello") (fun _ => none)

/-- Every candidate fails with a message carrying both an API_KEY and a
429 marker. -/
def envKey429 : AnalyzeEnv :=
  AnalyzeEnv.mk "key" (.ok "img") .notOk
    (fun _ _ => .error "API_KEY rejected with status 429") (fun _ => none)

/-- The model responds with the bare number literal 429. -/
def envNum429 : AnalyzeEnv :=
  AnalyzeEnv.mk "key" (.ok "img") .notOk (fun _ _ => .ok "429")
    (fun s => if s = "429" then some (.num 429) else none)

/-- The model responds with a negative upstream total. -/
def envNegTotal : AnalyzeEnv :=
  AnalyzeEnv.mk "key" (.ok "img") .notOk (fun _ _ => .ok "x")
    (fun _ => some (.obj [( "totalEstimatedValue", .num (-3)), ( "items", .arr [])]))

/-- The model responds with a string-typed per-item estimated value. -/
def envStrItem : AnalyzeEnv :=
  AnalyzeEnv.mk "key" (.ok "img") .notOk (fun _ _ => .ok "x")
    (fun _ => some (.obj [( "items", .arr [ .obj [( "estimatedValue", .str "2.5")]])]))

/-- The model responds with an empty JSON object. -/
def envEmptyObj : AnalyzeEnv :=
  AnalyzeEnv.mk "key" (.ok "img") .notOk (fun _ _ => .ok "x")
    (fun _ => some (.obj []))

/-- A catalog of three vision-capable models where the first candidate
fails and the second succeeds. -/
def envSecondWins : AnalyzeEnv :=
  AnalyzeEnv.mk "key" (.ok "img")
    (.payload (.obj [( "models", .arr
      [ .obj [( "name", .str "models/gemini-pro-a")],
        .obj [( "name", .str "models/gemini-pro-b")],
        .obj [( "name", .str "models/gemini-pro-c")]])]))
    (fun n _ => if n = "gemini-pro-a" then .error "boom" else .ok "resp")
    (fun _ => none)

/-- A catalog of three vision-capable models where the first candidate
fails and the second succeeds with the empty response text, which is
falsy at line 138. -/
def envEmptyText : AnalyzeEnv :=
  AnalyzeEnv.mk "key" (.ok "img")
    (.payload (.obj [( "models", .arr
      [ .obj [( "name", .str "models/gemini-pro-a")],
        .obj [( "name", .str "models/gemini-pro-b")],
        .obj [( "name", .str "models/gemini-pro-c")]])]))
    (fun n _ => if n = "gemini-pro-a" then .error "boom" else .ok "")
    (fun _ => none)

/-- A concrete JSON object text (`\x7b"a":1\x7d`). -/
def jText : String := "\x7b\"a\":1\x7d"

/-- A parse oracle recognizing exactly `jText`. -/
def jParse : String → Option JsonVal :=
  fun s => if s = jText then some (.obj [( "a", .num 1)]) else none

/-- The N/A example object of the spec: wrong-typed total, items valued
2.5 and 1.0. -/
def naObj : JsObject :=
  JsObject.mk false []
    [( "totalEstimatedValue", .str "N/A"),
     ( "items", .arr [ .obj [( "estimatedValue", .num (mkRat 5 2))],
                       .obj [( "estimatedValue", .num 1)]])]

/-! ## Helper lemmas -/

theorem str_data_append (a b : String) : (a ++ b).data = a.data ++ b.data := rfl

theorem str_append_ne_empty (a b : String) (h : a.data ≠ []) : a ++ b ≠ "" := by
  intro hc
  apply h
  have := congrArg String.data hc
  rw [str_data_append] at this
  exact (List.append_eq_nil.mp this).1

theorem isPrefixOf_self_append (p r : List Char) : p.isPrefixOf (p ++ r) = true := by
  rw [List.isPrefixOf_iff_prefix]
  exact List.prefix_append p r

theorem hasSubL_self_append (p r : List Char) : hasSubL p (p ++ r) = true := by
  cases p with
  | nil =>
    cases r with
    | nil => rfl
    | cons a rest => simp [hasSubL, List.isPrefixOf]
  | cons a rest =>
    show ((a :: rest).isPrefixOf ((a :: rest) ++ r) || hasSubL (a :: rest) (rest ++ r)) = true
    rw [isPrefixOf_self_append]
    simp

theorem hasSubL_cons_of (p : List Char) (a : Char) (l : List Char)
    (h : hasSubL p l = true) : hasSubL p (a :: l) = true := by
  simp only [hasSubL, h, Bool.or_true]

theorem hasSubL_append_right (p s l : List Char) (h : hasSubL p l = true) :
    hasSubL p (s ++ l) = true := by
  induction s with
  | nil => simpa using h
  | cons a rest ih => exact hasSubL_cons_of p a (rest ++ l) ih

theorem isPrefixOf_append_of (p l r : List Char) (h : p.isPrefixOf l = true) :
    p.isPrefixOf (l ++ r) = true := by
  rw [List.isPrefixOf_iff_prefix] at h ⊢
  exact h.trans (List.prefix_append l r)

theorem hasSubL_append_left (p l r : List Char) (h : hasSubL p l = true) :
    hasSubL p (l ++ r) = true := by
  induction l with
  | nil =>
    simp only [hasSubL] at h
    cases p with
    | nil => exact hasSubL_self_append [] r
    | cons a rest => simp [List.isEmpty] at h
  | cons a rest ih =>
    simp only [hasSubL, Bool.or_eq_true] at h
    rcases h with h | h
    · show (p.isPrefixOf ((a :: rest) ++ r) || hasSubL p (rest ++ r)) = true
      rw [isPrefixOf_append_of _ _ _ h]
      simp
    · exact hasSubL_cons_of p a (rest ++ r) (ih h)

theorem hasSub_append_right (p s t : String) (h : hasSub p t = true) :
    hasSub p (s ++ t) = true := by
  unfold hasSub at h ⊢
  rw [str_data_append]
  exact hasSubL_append_right _ _ _ h

theorem hasSub_append_left (p s t : String) (h : hasSub p s = true) :
    hasSub p (s ++ t) = true := by
  unfold hasSub at h ⊢
  rw [str_data_append]
  exact hasSubL_append_left _ _ _ h

theorem hasSub_refl (p : String) : hasSub p p = true := by
  unfold hasSub
  have := hasSubL_self_append p.data []
  simpa using this

theorem hasSub_joinComma (n : String) (names : List String) (h : n ∈ names) :
    hasSub n (joinComma names) = true := by
  induction names with
  | nil => cases h
  | cons m rest ih =>
    cases rest with
    | nil =>
      rcases List.mem_singleton.mp h with rfl
      simpa [joinComma] using hasSub_refl n
    | cons m2 rest2 =>
      rcases List.mem_cons.mp h with rfl | hmem
      · show hasSub n (n ++ ", " ++ joinComma (m2 :: rest2)) = true
        rw [String.append_assoc]
        exact hasSub_append_left _ _ _ (hasSub_refl n)
      · show hasSub n (m ++ ", " ++ joinComma (m2 :: rest2)) = true
        rw [String.append_assoc]
        exact hasSub_append_right _ _ _ (hasSub_append_right _ _ _ (ih hmem))

theorem getKey_setEntry_self (fs : List (String × JsonVal)) (k : String) (v : JsonVal) :
    getKey (setEntry k v fs) k = some v := by
  induction fs with
  | nil => simp [setEntry, getKey]
  | cons e rest ih =>
    obtain ⟨k2, v2⟩ := e
    by_cases h : k2 = k
    · simp [setEntry, h, getKey]
    · simp [setEntry, h, getKey, ih]

theorem getKey_setEntry_of_ne (fs : List (String × JsonVal)) (k k2 : String) (v : JsonVal)
    (h : k2 ≠ k) : getKey (setEntry k v fs) k2 = getKey fs k2 := by
  induction fs with
  | nil => simp [setEntry, getKey, Ne.symm h]
  | cons e rest ih =>
    obtain ⟨k3, v3⟩ := e
    by_cases h3 : k3 = k
    · subst h3
      simp [setEntry, getKey, Ne.symm h]
    · simp [setEntry, h3, getKey, ih]

theorem getProp_setProp_self (o : JsObject) (k : String) (v : JsonVal) :
    getProp (setProp o k v) k = some v := getKey_setEntry_self o.props k v

theorem getProp_setProp_of_ne (o : JsObject) (k k2 : String) (v : JsonVal)
    (h : k2 ≠ k) : getProp (setProp o k v) k2 = getProp o k2 :=
  getKey_setEntry_of_ne o.props k k2 v h

theorem step1_items_isArray (o : JsObject) :
    isArrayValOpt (getProp (step1 o) "items") = true := by
  rw [step1]
  cases hc : isArrayValOpt (getProp o "items") with
  | true => simp [hc]
  | false =>
    simp only [hc, Bool.false_eq_true, if_false]
    rw [getProp_setProp_self]
    rfl

theorem getProp_step1_of_ne (o : JsObject) (k : String) (h : k ≠ "items") :
    getProp (step1 o) k = getProp o k := by
  unfold step1
  by_cases hc : isArrayValOpt (getProp o "items") = true
  · simp [hc]
  · simp only [Bool.not_eq_true] at hc
    simp [hc, getProp_setProp_of_ne _ _ _ _ h]

theorem step2_of_num (o : JsObject)
    (h : isNumOpt (getProp o "totalEstimatedValue") = true) : step2 o = .ok o := by
  simp [step2, h]

theorem step2_of_sum (o : JsObject) (s : JsonVal)
    (h : isNumOpt (getProp o "totalEstimatedValue") = false)
    (hs : jsReduceSum (.num 0) (itemsOf o) = .ok s) :
    step2 o = .ok (setProp o "totalEstimatedValue" s) := by
  simp [step2, h, hs]

theorem step2_ok_preserve (o o2 : JsObject) (k : String)
    (h : step2 o = .ok o2) (hk : k ≠ "totalEstimatedValue") :
    getProp o2 k = getProp o k := by
  rw [step2] at h
  cases hb : isNumOpt (getProp o "totalEstimatedValue") with
  | true =>
    rw [hb, if_pos rfl] at h
    cases h
    rfl
  | false =>
    rw [hb] at h
    simp only [Bool.false_eq_true, if_false] at h
    rcases hs : jsReduceSum (.num 0) (itemsOf o) with m | s
    all_goals rw [hs] at h
    · cases h
    · cases h
      exact getProp_setProp_of_ne _ _ _ _ hk

theorem step3_waste_present (o : JsObject) :
    (getProp (step3 o) "estimatedWaste").isSome = true := by
  unfold step3
  by_cases h : truthyOpt (getProp o "estimatedWaste") = true
  · simp only [h, if_true]
    rcases hv : getProp o "estimatedWaste" with _ | v
    · rw [hv] at h
      simp [truthyOpt] at h
    · simp [hv]
  · simp only [Bool.not_eq_true] at h
    simp [h, getProp_setProp_self]

theorem step3_of_absent (o : JsObject) (h : getProp o "estimatedWaste" = none) :
    getProp (step3 o) "estimatedWaste" = some wasteDefault := by
  unfold step3
  simp [h, truthyOpt, getProp_setProp_self]

theorem getProp_step3_of_ne (o : JsObject) (k : String) (h : k ≠ "estimatedWaste") :
    getProp (step3 o) k = getProp o k := by
  unfold step3
  by_cases hc : truthyOpt (getProp o "estimatedWaste") = true
  · simp [hc]
  · simp only [Bool.not_eq_true] at hc
    simp [hc, getProp_setProp_of_ne _ _ _ _ h]

theorem jsReduceSum_cons_numeric (item : JsonVal) (rest : List JsonVal) (a : Rat)
    (hit : itemOkB item = true) :
    jsReduceSum (.num a) (item :: rest) =
      jsReduceSum (.num (a + itemContribution item)) rest := by
  cases item with
  | null => simp [itemOkB] at hit
  | obj g =>
    rcases hev : getKey g "estimatedValue" with _ | v
    · simp [jsReduceSum, readEstimatedValue, hev, itemContribution, jsAdd,
        jsToPrimitive, toNumber]
    · cases v with
      | num q =>
        by_cases hq : q = 0
        · subst hq
          simp [jsReduceSum, readEstimatedValue, hev, itemContribution, truthy,
            jsAdd, jsToPrimitive, toNumber]
        · simp [jsReduceSum, readEstimatedValue, hev, itemContribution, truthy, hq,
            jsAdd, jsToPrimitive, toNumber]
      | null => simp [itemOkB, hev] at hit
      | bool b => simp [itemOkB, hev] at hit
      | str s => simp [itemOkB, hev] at hit
      | arr es => simp [itemOkB, hev] at hit
      | obj g2 => simp [itemOkB, hev] at hit
  | bool b =>
    simp [jsReduceSum, readEstimatedValue, itemContribution, jsAdd, jsToPrimitive, toNumber]
  | num q =>
    simp [jsReduceSum, readEstimatedValue, itemContribution, jsAdd, jsToPrimitive, toNumber]
  | str s =>
    simp [jsReduceSum, readEstimatedValue, itemContribution, jsAdd, jsToPrimitive, toNumber]
  | arr es =>
    simp [jsReduceSum, readEstimatedValue, itemContribution, jsAdd, jsToPrimitive, toNumber]

theorem jsReduceSum_numeric (l : List JsonVal) (a : Rat)
    (h : ∀ it ∈ l, itemOkB it = true) :
    jsReduceSum (.num a) l = .ok (.num (a + sumContributions l)) := by
  induction l generalizing a with
  | nil => simp [jsReduceSum, sumContributions]
  | cons it rest ih =>
    rw [jsReduceSum_cons_numeric it rest a (h it (List.mem_cons_self it rest)),
      ih _ (fun x hx => h x (List.mem_cons_of_mem it hx))]
    have hsum : sumContributions (it :: rest) = itemContribution it + sumContributions rest := by
      simp [sumContributions]
    rw [hsum, add_assoc]

theorem braceSpanL_wrap (p q t : List Char)
    (hp : ∀ c ∈ p, (c != lb) = true)
    (hq : ∀ c ∈ q, (c != lb) = true ∧ (c != rb) = true) :
    braceSpanL (p ++ (t ++ q)) = braceSpanL t := by
  unfold braceSpanL
  rw [List.dropWhile_append_of_pos hp, List.dropWhile_append]
  cases ht : (t.dropWhile (fun c => c != lb)).isEmpty with
  | true =>
    simp only [if_true]
    have hqnil : q.dropWhile (fun c => c != lb) = [] :=
      List.dropWhile_eq_nil_iff.mpr (fun c hc => (hq c hc).1)
    rw [hqnil]
    have htnil : t.dropWhile (fun c => c != lb) = [] := by
      simpa [List.isEmpty_iff] using ht
    rw [htnil]
  | false =>
    simp only [Bool.false_eq_true, if_false]
    rw [List.reverse_append]
    have hqrev : ∀ c ∈ q.reverse, (c != rb) = true := by
      intro c hc
      exact (hq c (List.mem_reverse.mp hc)).2
    rw [List.dropWhile_append_of_pos hqrev]

theorem braceSpan_fenceWrap (t : String) :
    braceSpan (fenceWrap t) = braceSpan t := by
  unfold braceSpan fenceWrap
  have hd : ( "```json\n" ++ t ++ "\n```").data =
      ( "```json\n").data ++ (t.data ++ ( "\n```").data) := by
    rw [str_data_append, str_data_append, List.append_assoc]
  rw [hd, braceSpanL_wrap]
  · decide
  · decide

theorem classify_keywordFree (m : String) (hk : keywordFree m = true) (hne : ¬ m = "") :
    classify m = (.genericFailure, "AI analysis failed: " ++ m) := by
  unfold keywordFree at hk
  simp only [Bool.and_eq_true, Bool.not_eq_true'] at hk
  obtain ⟨⟨⟨⟨⟨⟨⟨⟨h1, h2⟩, h3⟩, h4⟩, h5⟩, h6⟩, h7⟩, h8⟩, h9⟩ := hk
  unfold classify
  rw [h1, h2, h3, h4, h5, h6, h7, h8, h9]
  simp [hne]

theorem runLoop_cons_ok (gen : String → Bool → Except String String)
    (n : String) (rest : List String) (le : Option String) (t : String)
    (h : gen n (hasSub "1.5" n) = .ok t) :
    runLoop gen (n :: rest) le = LoopResult.mk (some t) le [n] := by
  simp only [runLoop, h]

theorem runLoop_cons_error (gen : String → Bool → Except String String)
    (n : String) (rest : List String) (le : Option String) (e : String)
    (h : gen n (hasSub "1.5" n) = .error e) :
    runLoop gen (n :: rest) le =
      LoopResult.mk (runLoop gen rest (some e)).content
        (runLoop gen rest (some e)).lastError
        (n :: (runLoop gen rest (some e)).attempts) := by
  simp only [runLoop, h]

theorem runLoop_attempts_ordered (gen : String → Bool → Except String String)
    (names : List String) (le : Option String) :
    (runLoop gen names le).attempts <+: names := by
  induction names generalizing le with
  | nil => simp [runLoop]
  | cons n rest ih =>
    rcases hg : gen n (hasSub "1.5" n) with e | t
    · rw [runLoop_cons_error gen n rest le e hg]
      exact List.cons_prefix_cons.mpr ⟨rfl, ih (some e)⟩
    · rw [runLoop_cons_ok gen n rest le t hg]
      simp

theorem runLoop_first_success (gen : String → Bool → Except String String)
    (a b : String) (rest : List String) (t e : String) (le : Option String)
    (ha : gen a (hasSub "1.5" a) = .error e)
    (hb : gen b (hasSub "1.5" b) = .ok t) :
    runLoop gen (a :: b :: rest) le = LoopResult.mk (some t) (some e) [a, b] := by
  rw [runLoop_cons_error gen a (b :: rest) le e ha,
    runLoop_cons_ok gen b rest (some e) t hb]

theorem runLoop_all_fail (gen : String → Bool → Except String String)
    (names : List String) (le : Option String)
    (h : ∀ n ∈ names, ∃ e, gen n (hasSub "1.5" n) = .error e) :
    (runLoop gen names le).content = none ∧
      (runLoop gen names le).attempts = names ∧
      (names ≠ [] → ∃ n e, names.getLast? = some n ∧
        gen n (hasSub "1.5" n) = .error e ∧
        (runLoop gen names le).lastError = some e) := by
  induction names generalizing le with
  | nil => simp [runLoop]
  | cons n rest ih =>
    obtain ⟨e, he⟩ := h n (List.mem_cons_self n rest)
    have hrest : ∀ x ∈ rest, ∃ e2, gen x (hasSub "1.5" x) = .error e2 :=
      fun x hx => h x (List.mem_cons_of_mem n hx)
    obtain ⟨ihc, iha, ihl⟩ := ih (some e) hrest
    rw [runLoop_cons_error gen n rest le e he]
    refine ⟨ihc, by simpa using iha, ?_⟩
    intro _
    cases rest with
    | nil =>
      refine ⟨n, e, by simp, he, ?_⟩
      simp [runLoop]
    | cons r2 rest2 =>
      obtain ⟨n2, e2, hg, hge, hle⟩ := ihl (by simp)
      refine ⟨n2, e2, ?_, hge, hle⟩
      rw [List.getLast?_cons_cons]
      exact hg

theorem analyzeFoodWaste_of_error (env : AnalyzeEnv) (f : Failure) (cs : List NetCall)
    (h : analyzeCore env = (.error f, cs)) :
    analyzeFoodWaste env = (.error (classify f.message), cs) := by
  unfold analyzeFoodWaste
  rw [h]

theorem analyzeFoodWaste_of_ok (env : AnalyzeEnv) (r : JsObject) (cs : List NetCall)
    (h : analyzeCore env = (.ok r, cs)) :
    analyzeFoodWaste env = (.ok r, cs) := by
  unfold analyzeFoodWaste
  rw [h]

theorem analyzeCore_content (env : AnalyzeEnv) (s content : String)
    (hk : ¬ env.apiKey = "") (hr : env.readResult = .ok s)
    (hc : (runLoop env.gen (modelCandidates env.catalog) none).content = some content)
    (hne : ¬ content = "") :
    analyzeCore env = (analyzeTail env.parse content,
      NetCall.catalogQuery ::
        ((runLoop env.gen (modelCandidates env.catalog) none).attempts.map NetCall.generate)) := by
  unfold analyzeCore
  rw [if_neg hk, hr]
  simp only [hc]
  rw [if_neg hne]

theorem analyzeCore_empty_content (env : AnalyzeEnv) (s : String)
    (hk : ¬ env.apiKey = "") (hr : env.readResult = .ok s)
    (hc : (runLoop env.gen (modelCandidates env.catalog) none).content = some "") :
    analyzeCore env = (.error (Failure.mk
        (aggregateMsg (modelCandidates env.catalog)
          ((runLoop env.gen (modelCandidates env.catalog) none).lastError)) none),
      NetCall.catalogQuery ::
        ((runLoop env.gen (modelCandidates env.catalog) none).attempts.map NetCall.generate)) := by
  unfold analyzeCore
  rw [if_neg hk, hr]
  simp only [hc]
  rw [if_true]

theorem analyzeCore_loop_failed (env : AnalyzeEnv) (s : String)
    (hk : ¬ env.apiKey = "") (hr : env.readResult = .ok s)
    (hc : (runLoop env.gen (modelCandidates env.catalog) none).content = none) :
    analyzeCore env = (.error (Failure.mk
        (aggregateMsg (modelCandidates env.catalog)
          ((runLoop env.gen (modelCandidates env.catalog) none).lastError)) none),
      NetCall.catalogQuery ::
        ((runLoop env.gen (modelCandidates env.catalog) none).attempts.map NetCall.generate)) := by
  unfold analyzeCore
  rw [if_neg hk, hr]
  simp only [hc]

theorem normalizeAnalysis_ok_shape (v : JsonVal) (r : JsObject)
    (h : normalizeAnalysis v = .ok r) :
    ∃ o, toObj v = some o ∧ normalizeSteps o = .ok r := by
  unfold normalizeAnalysis at h
  split at h
  next o heq => exact ⟨o, heq, h⟩
  next heq =>
    split at h
    next m heq2 => cases h
    next heq2 => cases h

theorem analyzeTail_ok_shape (parse : String → Option JsonVal) (content : String)
    (r : JsObject) (h : analyzeTail parse content = .ok r) :
    ∃ v, normalizeAnalysis v = .ok r := by
  unfold analyzeTail at h
  split at h
  next pf heq => cases h
  next v heq =>
    split at h
    next m heq2 => cases h
    next res heq2 =>
      cases h
      exact ⟨v, heq2⟩

theorem analyzeCore_ok_shape (env : AnalyzeEnv) (r : JsObject) (cs : List NetCall)
    (h : analyzeCore env = (.ok r, cs)) :
    ∃ v o, toObj v = some o ∧ normalizeSteps o = .ok r := by
  unfold analyzeCore at h
  split at h
  · cases h
  · split at h
    next m heq => cases h
    next s heq =>
      dsimp only at h
      split at h
      next heq2 => cases h
      next content heq2 =>
        split at h
        · cases h
        · have h2 : analyzeTail env.parse content = .ok r := by
            have := congrArg Prod.fst h
            simpa using this
          obtain ⟨v, hv⟩ := analyzeTail_ok_shape env.parse content r h2
          obtain ⟨o, ho, hn⟩ := normalizeAnalysis_ok_shape v r hv
          exact ⟨v, o, ho, hn⟩

theorem analyzeFoodWaste_ok_shape (env : AnalyzeEnv) (r : JsObject) (cs : List NetCall)
    (h : analyzeFoodWaste env = (.ok r, cs)) :
    ∃ v o, toObj v = some o ∧ normalizeSteps o = .ok r := by
  unfold analyzeFoodWaste at h
  rcases hcore : analyzeCore env with ⟨res, cs2⟩
  rw [hcore] at h
  cases res with
  | ok r2 =>
    simp only [Prod.mk.injEq, Except.ok.injEq] at h
    obtain ⟨h1, h2⟩ := h
    subst h1
    subst h2
    exact analyzeCore_ok_shape env _ _ hcore
  | error f => simp at h

theorem analyzeFoodWaste_calls (env : AnalyzeEnv) :
    (analyzeFoodWaste env).2 = (analyzeCore env).2 := by
  unfold analyzeFoodWaste
  rcases h : analyzeCore env with ⟨res, cs⟩
  cases res <;> rfl

/-! ## Claim theorems -/

/-- Claim C8: model discovery never raises to the caller (it is a total
function of the catalog outcome, every thrown error being absorbed into
an empty `availableModels`), and the candidate list is exactly the
spec-described selection: vision-suggesting names from a successful
non-empty catalog, else the first three entries, else — on any failure
or an empty list — the static ordered fallback list. -/
theorem c8_discovery_refinement : ∀ c : CatalogOutcome, modelCandidates c = discoverySpec c := by
  intro c
  unfold modelCandidates discoverySpec availableModels
  rcases hd : discoveryAttempt c with m | l
  · rfl
  · cases l with
    | nil => rfl
    | cons x xs =>
      rcases hv : List.filter visionName (x :: xs) with _ | ⟨y, ys⟩
      · simp [hv]
      · simp [hv]

/-- Claim C5 counterexample: when candidate 2 succeeds but its response
text is empty, exactly two generation calls are still made and the loop
has stopped, yet no result normalized from that text is returned — the
falsy `modelContent` of line 138 raises the all-failed aggregate error
instead. -/
theorem c5_first_success_counterexample :
    envEmptyText.gen "gemini-pro-b" (hasSub "1.5" "gemini-pro-b") = .ok "" ∧
    analyzeFoodWaste envEmptyText = (.error (.genericFailure,
        "AI analysis failed: " ++
          aggregateMsg [ "gemini-pro-a", "gemini-pro-b", "gemini-pro-c"] (some "boom")),
      [NetCall.catalogQuery, NetCall.generate "gemini-pro-a", NetCall.generate "gemini-pro-b"]) :=
  ⟨rfl, rfl⟩

/-- Claim C5 (amended): the fallback loop tries candidates strictly in
list order (its attempts are a prefix of the candidate list) with at
most N generation calls, and stops at the first success.  When
candidate 1 throws and candidate 2 succeeds with non-empty text, the
result is the tail pipeline applied to the response text of candidate 2
and exactly two generation calls are made, whatever further candidates
exist; when the first success carries the empty (falsy) text, the loop
still stops after exactly two generation calls, but the adapter raises
the line-139 aggregate error instead of returning a result. -/
theorem c5_first_success :
    (∀ (gen : String → Bool → Except String String) (names : List String) (le : Option String),
      ((runLoop gen names le).attempts <+: names) ∧
        (runLoop gen names le).attempts.length ≤ names.length) ∧
    (∀ (env : AnalyzeEnv) (a b : String) (rest : List String) (t e s : String),
      modelCandidates env.catalog = a :: b :: rest →
      ¬ env.apiKey = "" →
      env.readResult = .ok s →
      env.gen a (hasSub "1.5" a) = .error e →
      env.gen b (hasSub "1.5" b) = .ok t →
      ¬ t = "" →
      analyzeCore env = (analyzeTail env.parse t,
        [NetCall.catalogQuery, NetCall.generate a, NetCall.generate b]) ∧
      (analyzeFoodWaste env).2 = [NetCall.catalogQuery, NetCall.generate a, NetCall.generate b]) ∧
    (∀ (env : AnalyzeEnv) (a b : String) (rest : List String) (e s : String),
      modelCandidates env.catalog = a :: b :: rest →
      ¬ env.apiKey = "" →
      env.readResult = .ok s →
      env.gen a (hasSub "1.5" a) = .error e →
      env.gen b (hasSub "1.5" b) = .ok "" →
      analyzeCore env = (.error (Failure.mk (aggregateMsg (a :: b :: rest) (some e)) none),
        [NetCall.catalogQuery, NetCall.generate a, NetCall.generate b]) ∧
      (analyzeFoodWaste env).2 = [NetCall.catalogQuery, NetCall.generate a, NetCall.generate b]) := by
  refine ⟨?_, ?_, ?_⟩
  · intro gen names le
    exact ⟨runLoop_attempts_ordered gen names le,
      (runLoop_attempts_ordered gen names le).length_le⟩
  · intro env a b rest t e s hm hk hr ha hb ht
    have hloop : runLoop env.gen (modelCandidates env.catalog) none =
        LoopResult.mk (some t) (some e) [a, b] := by
      rw [hm]
      exact runLoop_first_success env.gen a b rest t e none ha hb
    have hcore := analyzeCore_content env s t hk hr (by rw [hloop]) ht
    rw [hloop] at hcore
    refine ⟨hcore, ?_⟩
    rw [analyzeFoodWaste_calls, hcore]
    rfl
  · intro env a b rest e s hm hk hr ha hb
    have hloop : runLoop env.gen (modelCandidates env.catalog) none =
        LoopResult.mk (some "") (some e) [a, b] := by
      rw [hm]
      exact runLoop_first_success env.gen a b rest "" e none ha hb
    have hcore := analyzeCore_empty_content env s hk hr (by rw [hloop])
    rw [hloop, hm] at hcore
    refine ⟨hcore, ?_⟩
    rw [analyzeFoodWaste_calls, hcore]
    rfl

/-- Claim C5 witness: with a three-candidate catalog where candidate 1
throws and candidate 2 answers non-emptily, the adapter consumes
exactly two generation calls and normalizes the text of candidate 2;
the empty-text branch is exercised on the counterexample catalog. -/
theorem c5_first_success_witness :
    (analyzeCore envSecondWins = (analyzeTail envSecondWins.parse "resp",
      [NetCall.catalogQuery, NetCall.generate "gemini-pro-a", NetCall.generate "gemini-pro-b"]) ∧
    (analyzeFoodWaste envSecondWins).2 =
      [NetCall.catalogQuery, NetCall.generate "gemini-pro-a", NetCall.generate "gemini-pro-b"]) ∧
    (analyzeCore envEmptyText = (.error (Failure.mk
        (aggregateMsg [ "gemini-pro-a", "gemini-pro-b", "gemini-pro-c"] (some "boom")) none),
      [NetCall.catalogQuery, NetCall.generate "gemini-pro-a", NetCall.generate "gemini-pro-b"]) ∧
    (analyzeFoodWaste envEmptyText).2 =
      [NetCall.catalogQuery, NetCall.generate "gemini-pro-a", NetCall.generate "gemini-pro-b"]) :=
  ⟨c5_first_success.2.1 envSecondWins "gemini-pro-a" "gemini-pro-b" [ "gemini-pro-c"]
      "resp" "boom" "img" rfl (by decide) rfl rfl rfl (by decide),
   c5_first_success.2.2 envEmptyText "gemini-pro-a" "gemini-pro-b" [ "gemini-pro-c"]
      "boom" "img" rfl (by decide) rfl rfl rfl⟩

/-- Claim C6: wrapping a brace-bearing response text in a markdown code
fence does not change what the tolerant extraction parses: the fence
adds no braces, so the first-brace-to-last-brace span is identical and
extraction succeeds with the same parsed object. -/
theorem c6_fenced_extraction (parse : String → Option JsonVal) (t : String) (v : JsonVal)
    (hb : (braceSpan t).isSome = true)
    (h : extractAnalysis parse t = .ok v) :
    extractAnalysis parse (fenceWrap t) = .ok v := by
  unfold extractAnalysis at h ⊢
  rw [braceSpan_fenceWrap]
  rcases hs : braceSpan t with _ | span
  · rw [hs] at hb
    simp at hb
  · simp only [hs] at h ⊢
    rcases hp : parse span with _ | v2
    all_goals simp only [hp] at h ⊢
    · cases h
    · exact h

/-- Claim C6 witness: the concrete object text parses identically bare
and fenced. -/
theorem c6_fenced_extraction_witness :
    (braceSpan jText).isSome = true ∧
      extractAnalysis jParse jText = .ok (.obj [( "a", .num 1)]) ∧
      extractAnalysis jParse (fenceWrap jText) = .ok (.obj [( "a", .num 1)]) :=
  ⟨rfl, rfl, c6_fenced_extraction jParse jText (.obj [( "a", .num 1)]) rfl rfl⟩

/-- Claim C3: with the credential empty the adapter does fail before
any network call (zero calls recorded), but the raised error is not the
configuration-missing message re-raised verbatim: that message contains
the substring API_KEY, so the line-183 invalid-credential branch fires
first and replaces it, leaving the line-193 verbatim re-raise dead for
this very message. -/
theorem c3_missing_key_bug :
    analyzeFoodWaste envNoKey = (.error (.invalidCredential, invalidKeyMsg), []) ∧
    hasSub "API_KEY" configMissingMsg = true ∧
    classify configMissingMsg = (.invalidCredential, invalidKeyMsg) ∧
    invalidKeyMsg ≠ configMissingMsg := by
  refine ⟨rfl, rfl, rfl, ?_⟩
  decide

/-- Claim C1 counterexample: the claim asserts every successful return
carries a non-negative number in `totalEstimatedValue`; but a numeric
upstream value passes through unchecked, so an upstream `-3` is
returned as `-3 < 0`, and a string-typed per-item value makes the
reduce concatenate, returning the string `02.5` — not a number at
all. -/
theorem c1_total_counterexample :
    analyzeFoodWaste envNegTotal = (.ok (JsObject.mk false []
        [( "totalEstimatedValue", .num (-3)), ( "items", .arr []),
         ( "estimatedWaste", wasteDefault)]),
      [NetCall.catalogQuery, NetCall.generate "gemini-pro-vision"]) ∧
    (-3 : Rat) < 0 ∧
    analyzeFoodWaste envStrItem = (.ok (JsObject.mk false []
        [( "items", .arr [ .obj [( "estimatedValue", .str "2.5")]]),
         ( "totalEstimatedValue", .str "02.5"), ( "estimatedWaste", wasteDefault)]),
      [NetCall.catalogQuery, NetCall.generate "gemini-pro-vision"]) := by
  refine ⟨rfl, by norm_num, rfl⟩

/-- Claim C1 (amended): every successful return of the adapter is a
normalization result; a number-typed upstream `totalEstimatedValue` is
returned unchanged (so it is non-negative only when upstream sent a
non-negative number); and when it is absent or not a number — and every
item is non-null with `estimatedValue` absent or numeric — the returned
`totalEstimatedValue` is exactly the sum of the per-item estimated values
with missing values as zero. -/
theorem c1_total_amended :
    (∀ (env : AnalyzeEnv) (r : JsObject) (cs : List NetCall),
        analyzeFoodWaste env = (.ok r, cs) → ∃ o, normalizeSteps o = .ok r) ∧
    (∀ (o : JsObject) (q : Rat), getProp o "totalEstimatedValue" = some (.num q) →
        ∃ r, normalizeSteps o = .ok r ∧ getProp r "totalEstimatedValue" = some (.num q)) ∧
    (∀ o : JsObject, isNumOpt (getProp o "totalEstimatedValue") = false →
        (∀ it ∈ itemsOf (step1 o), itemOkB it = true) →
        ∃ r, normalizeSteps o = .ok r ∧
          getProp r "totalEstimatedValue" =
            some (.num (sumContributions (itemsOf (step1 o))))) := by
  refine ⟨?_, ?_, ?_⟩
  · intro env r cs h
    obtain ⟨v, o, _, hn⟩ := analyzeFoodWaste_ok_shape env r cs h
    exact ⟨o, hn⟩
  · intro o q hq
    have h1 : getProp (step1 o) "totalEstimatedValue" = some (.num q) := by
      rw [getProp_step1_of_ne o _ (by decide)]
      exact hq
    have h2 : step2 (step1 o) = .ok (step1 o) := step2_of_num _ (by rw [h1]; rfl)
    refine ⟨step3 (step1 o), ?_, ?_⟩
    · unfold normalizeSteps
      rw [h2]
    · rw [getProp_step3_of_ne _ _ (by decide), h1]
  · intro o hnum hitems
    have hs := jsReduceSum_numeric (itemsOf (step1 o)) 0 hitems
    rw [zero_add] at hs
    have hnum1 : isNumOpt (getProp (step1 o) "totalEstimatedValue") = false := by
      rw [getProp_step1_of_ne o _ (by decide)]
      exact hnum
    have h2 := step2_of_sum (step1 o) _ hnum1 hs
    refine ⟨step3 (setProp (step1 o) "totalEstimatedValue"
      (.num (sumContributions (itemsOf (step1 o))))), ?_, ?_⟩
    · unfold normalizeSteps
      rw [h2]
    · rw [getProp_step3_of_ne _ _ (by decide), getProp_setProp_self]

/-- Claim C1 witness: the example of the spec itself — upstream total `N/A`
(wrong type) and items valued 2.5 and 1.0 — normalizes to exactly
3.5. -/
theorem c1_total_witness :
    isNumOpt (getProp naObj "totalEstimatedValue") = false ∧
    ∃ r, normalizeSteps naObj = .ok r ∧
      getProp r "totalEstimatedValue" = some (.num (mkRat 7 2)) := by
  refine ⟨rfl, ?_⟩
  obtain ⟨r, hr, hv⟩ := c1_total_amended.2.2 naObj rfl (by decide)
  refine ⟨r, hr, ?_⟩
  rw [hv]
  have hsum : sumContributions (itemsOf (step1 naObj)) = mkRat 5 2 + (1 + 0) := rfl
  rw [hsum]
  norm_num [Rat.mkRat_eq_div]

/-- Claim C2 counterexample: an empty upstream object yields a
successful return whose `notes` property is absent — not a string — so
the notes clause of the claimed invariant fails. -/
theorem c2_invariants_counterexample :
    analyzeFoodWaste envEmptyObj = (.ok (JsObject.mk false []
        [( "items", .arr []), ( "totalEstimatedValue", .num 0),
         ( "estimatedWaste", wasteDefault)]),
      [NetCall.catalogQuery, NetCall.generate "gemini-pro-vision"]) ∧
    getProp (JsObject.mk false []
        [( "items", .arr []), ( "totalEstimatedValue", .num 0),
         ( "estimatedWaste", wasteDefault)]) "notes" = none := ⟨rfl, rfl⟩

/-- Claim C2 (amended): every successful return satisfies the items and
estimatedWaste invariants — `items` is an array even when the upstream
payload omits or mistypes it, `estimatedWaste` is always present and
equals the unknown/unknown default whenever the upstream object lacks
it — but `notes` is merely passed through unchanged: it may be absent
or non-string. -/
theorem c2_invariants_amended :
    (∀ (env : AnalyzeEnv) (r : JsObject) (cs : List NetCall),
        analyzeFoodWaste env = (.ok r, cs) → ∃ o, normalizeSteps o = .ok r) ∧
    (∀ o r : JsObject, normalizeSteps o = .ok r →
        isArrayValOpt (getProp r "items") = true ∧
        (getProp r "estimatedWaste").isSome = true ∧
        (getProp o "estimatedWaste" = none → getProp r "estimatedWaste" = some wasteDefault) ∧
        getProp r "notes" = getProp o "notes") := by
  constructor
  · intro env r cs h
    obtain ⟨v, o, _, hn⟩ := analyzeFoodWaste_ok_shape env r cs h
    exact ⟨o, hn⟩
  · intro o r h
    unfold normalizeSteps at h
    rcases h2 : step2 (step1 o) with m | o2
    all_goals rw [h2] at h
    · cases h
    · cases h
      refine ⟨?_, ?_, ?_, ?_⟩
      · rw [getProp_step3_of_ne _ _ (by decide),
          step2_ok_preserve _ _ _ h2 (by decide)]
        exact step1_items_isArray o
      · exact step3_waste_present o2
      · intro habs
        apply step3_of_absent
        rw [step2_ok_preserve _ _ _ h2 (by decide),
          getProp_step1_of_ne o _ (by decide)]
        exact habs
      · rw [getProp_step3_of_ne _ _ (by decide),
          step2_ok_preserve _ _ _ h2 (by decide),
          getProp_step1_of_ne o _ (by decide)]

/-- Claim C2 witness: the empty-object normalization satisfies every
amended invariant. -/
theorem c2_invariants_witness :
    normalizeSteps (JsObject.mk false [] []) = .ok (JsObject.mk false []
      [( "items", .arr []), ( "totalEstimatedValue", .num 0),
       ( "estimatedWaste", wasteDefault)]) ∧
    (isArrayValOpt (getProp (JsObject.mk false []
      [( "items", .arr []), ( "totalEstimatedValue", .num 0),
       ( "estimatedWaste", wasteDefault)]) "items") = true ∧
     (getProp (JsObject.mk false []
      [( "items", .arr []), ( "totalEstimatedValue", .num 0),
       ( "estimatedWaste", wasteDefault)]) "estimatedWaste").isSome = true ∧
     (getProp (JsObject.mk false [] []) "estimatedWaste" = none →
       getProp (JsObject.mk false []
        [( "items", .arr []), ( "totalEstimatedValue", .num 0),
         ( "estimatedWaste", wasteDefault)]) "estimatedWaste" = some wasteDefault) ∧
     getProp (JsObject.mk false []
      [( "items", .arr []), ( "totalEstimatedValue", .num 0),
       ( "estimatedWaste", wasteDefault)]) "notes" = getProp (JsObject.mk false [] []) "notes") :=
  ⟨rfl, c2_invariants_amended.2 (JsObject.mk false [] []) _ rfl⟩

theorem hasSub_empty_pat (s : String) : hasSub "" s = true := by
  unfold hasSub
  cases hd : s.data with
  | nil => rfl
  | cons a l => simp [hasSubL, List.isPrefixOf]

theorem aggregateMsg_eq (names : List String) (e : String) :
    aggregateMsg names (some e) =
      ( "All model attempts failed. Last error: " ++
        (if e = "" then "Unknown error" else e) ++ ". Tried models: ") ++
        joinComma names := by
  unfold aggregateMsg
  rfl

theorem aggregateMsg_ne_empty (names : List String) (e : String) :
    ¬ aggregateMsg names (some e) = "" := by
  rw [aggregateMsg_eq]
  apply str_append_ne_empty
  rw [str_data_append, str_data_append]
  intro hc
  have := (List.append_eq_nil.mp ((List.append_eq_nil.mp hc).1)).1
  revert this
  decide

theorem hasSub_aggregate_names (names : List String) (e n : String) (hn : n ∈ names) :
    hasSub n (aggregateMsg names (some e)) = true := by
  rw [aggregateMsg_eq]
  exact hasSub_append_right _ _ _ (hasSub_joinComma n names hn)

theorem hasSub_aggregate_last (names : List String) (e : String) :
    hasSub e (aggregateMsg names (some e)) = true := by
  rw [aggregateMsg_eq]
  by_cases he : e = ""
  · subst he
    exact hasSub_empty_pat _
  · rw [if_neg he]
    apply hasSub_append_left
    apply hasSub_append_left
    exact hasSub_append_right _ _ _ (hasSub_refl e)

/-- Claim C4 counterexample: when every candidate fails with a 429
message, the error the caller receives is the quota replacement, whose
text names no candidate at all — `gemini-pro-vision` was attempted but
is absent from it. -/
theorem c4_aggregate_counterexample :
    analyzeFoodWaste envAllFail429 = (.error (.quotaExceeded, quotaMsg),
      NetCall.catalogQuery :: staticModels.map NetCall.generate) ∧
    "gemini-pro-vision" ∈ staticModels ∧
    hasSub "gemini-pro-vision" quotaMsg = false := ⟨rfl, by decide, rfl⟩

/-- Claim C4 (amended): when every candidate fails, the internally
raised aggregate error names every attempted candidate in attempt order
(the join of the full candidate list) and contains the last underlying
error text; the error finally raised by the adapter is that aggregate
passed through the substring classification, which preserves it — still
naming every candidate — exactly when the aggregate matches no
classification keyword, and otherwise replaces it with the fixed
message of the matched kind. -/
theorem c4_aggregate_amended (env : AnalyzeEnv) (names : List String) (s : String)
    (hm : modelCandidates env.catalog = names) (hne : names ≠ [])
    (hk : ¬ env.apiKey = "") (hr : env.readResult = .ok s)
    (hfail : ∀ n ∈ names, ∃ e, env.gen n (hasSub "1.5" n) = .error e) :
    ∃ lastE,
      analyzeCore env = (.error (Failure.mk (aggregateMsg names (some lastE)) none),
        NetCall.catalogQuery :: names.map NetCall.generate) ∧
      (∀ n ∈ names, hasSub n (aggregateMsg names (some lastE)) = true) ∧
      hasSub lastE (aggregateMsg names (some lastE)) = true ∧
      analyzeFoodWaste env = (.error (classify (aggregateMsg names (some lastE))),
        NetCall.catalogQuery :: names.map NetCall.generate) ∧
      (keywordFree (aggregateMsg names (some lastE)) = true →
        classify (aggregateMsg names (some lastE)) = (.genericFailure,
          "AI analysis failed: " ++ aggregateMsg names (some lastE)) ∧
        ∀ n ∈ names,
          hasSub n ( "AI analysis failed: " ++ aggregateMsg names (some lastE)) = true) := by
  obtain ⟨hc, ha, hl⟩ := runLoop_all_fail env.gen names none hfail
  obtain ⟨nl, e, hgl, hge, hle⟩ := hl hne
  have hcore := analyzeCore_loop_failed env s hk hr (by rw [hm]; exact hc)
  rw [hm, hle, ha] at hcore
  refine ⟨e, hcore, ?_, ?_, ?_, ?_⟩
  · intro n hn
    exact hasSub_aggregate_names names e n hn
  · exact hasSub_aggregate_last names e
  · exact analyzeFoodWaste_of_error env _ _ hcore
  · intro hkf
    have hcl := classify_keywordFree _ hkf (aggregateMsg_ne_empty names e)
    refine ⟨hcl, ?_⟩
    intro n hn
    exact hasSub_append_right _ _ _ (hasSub_aggregate_names names e n hn)

/-- Claim C4 witness: five static candidates all failing with a
keyword-free message produce the aggregate error, naming all of them,
preserved verbatim under the generic classification. -/
theorem c4_aggregate_witness :
    ∃ lastE,
      analyzeCore envAllFailBoom = (.error (Failure.mk (aggregateMsg staticModels (some lastE)) none),
        NetCall.catalogQuery :: staticModels.map NetCall.generate) ∧
      (∀ n ∈ staticModels, hasSub n (aggregateMsg staticModels (some lastE)) = true) ∧
      hasSub lastE (aggregateMsg staticModels (some lastE)) = true ∧
      analyzeFoodWaste envAllFailBoom = (.error (classify (aggregateMsg staticModels (some lastE))),
        NetCall.catalogQuery :: staticModels.map NetCall.generate) ∧
      (keywordFree (aggregateMsg staticModels (some lastE)) = true →
        classify (aggregateMsg staticModels (some lastE)) = (.genericFailure,
          "AI analysis failed: " ++ aggregateMsg staticModels (some lastE)) ∧
        ∀ n ∈ staticModels,
          hasSub n ( "AI analysis failed: " ++ aggregateMsg staticModels (some lastE)) = true) :=
  c4_aggregate_amended envAllFailBoom staticModels "img" rfl (by decide) (by decide) rfl
    (fun n _ => ⟨ "boom", rfl⟩)

/-- Claim C7 counterexample: on a brace-free non-JSON response the
raw text of the failure goes only to the console log; the raised error
carries the fixed parse-failure message (classified generic), which
does not contain the offending text `hello`. -/
theorem c7_parse_failure_counterexample :
    analyzeCore envProse = (.error (Failure.mk parseFailMsg (some "hello")),
      [NetCall.catalogQuery, NetCall.generate "gemini-pro-vision"]) ∧
    analyzeFoodWaste envProse = (.error (.genericFailure,
        "AI analysis failed: " ++ parseFailMsg),
      [NetCall.catalogQuery, NetCall.generate "gemini-pro-vision"]) ∧
    hasSub "hello" ( "AI analysis failed: " ++ parseFailMsg) = false := ⟨rfl, rfl, rfl⟩

/-- Claim C7 (amended): when the successful response text is non-empty
(an empty text is falsy at line 138 and raises the aggregate error
before the parse stage is reached) but has no brace span and does not
parse, the adapter fails: the internal error carries the fixed
parse-failure message together with the raw text as the logged
(console) content, and the error finally raised is that fixed message
under the generic classification — the raw text is logged, not attached
to the raised error. -/
theorem c7_parse_failure_amended (env : AnalyzeEnv) (s content : String)
    (hk : ¬ env.apiKey = "") (hr : env.readResult = .ok s)
    (hc : (runLoop env.gen (modelCandidates env.catalog) none).content = some content)
    (hne : ¬ content = "")
    (hb : braceSpan content = none) (hp : env.parse content = none) :
    analyzeCore env = (.error (Failure.mk parseFailMsg (some content)),
      NetCall.catalogQuery ::
        ((runLoop env.gen (modelCandidates env.catalog) none).attempts.map NetCall.generate)) ∧
    (analyzeFoodWaste env).1 = .error (.genericFailure,
      "AI analysis failed: " ++ parseFailMsg) := by
  have hcore := analyzeCore_content env s content hk hr hc hne
  have htail : analyzeTail env.parse content = .error (Failure.mk parseFailMsg (some content)) := by
    unfold analyzeTail extractAnalysis
    rw [hb, hp]
  rw [htail] at hcore
  refine ⟨hcore, ?_⟩
  rw [analyzeFoodWaste_of_error env _ _ hcore]
  rfl

/-- Claim C7 witness: the prose environment exercises the amended
claim at a concrete input. -/
theorem c7_parse_failure_witness :
    analyzeCore envProse = (.error (Failure.mk parseFailMsg (some "hello")),
      NetCall.catalogQuery ::
        ((runLoop envProse.gen (modelCandidates envProse.catalog) none).attempts.map
          NetCall.generate)) ∧
    (analyzeFoodWaste envProse).1 = .error (.genericFailure,
      "AI analysis failed: " ++ parseFailMsg) :=
  c7_parse_failure_amended envProse "img" "hello" (by decide) rfl rfl (by decide) rfl rfl

/-- Claim C9 counterexample: a failure message containing `429` is not
always classified as quota — the `API_KEY` check runs first, so a
message carrying both markers yields the invalid-credential kind. -/
theorem c9_quota_counterexample :
    hasSub "429" "API_KEY rejected with status 429" = true ∧
    analyzeFoodWaste envKey429 = (.error (.invalidCredential, invalidKeyMsg),
      NetCall.catalogQuery :: staticModels.map NetCall.generate) ∧
    ErrKind.invalidCredential ≠ ErrKind.quotaExceeded := by
  refine ⟨rfl, rfl, ?_⟩
  decide

/-- Claim C9 (amended): a failure message containing `429` (or `quota`)
is finally classified as the quota-exceeded kind provided it does not
also contain `API_KEY`, which line 183 checks first; this holds
regardless of the producing stage because the adapter routes every
internal failure message through the one classification at its
boundary. -/
theorem c9_quota_amended :
    (∀ msg : String, (hasSub "quota" msg || hasSub "429" msg) = true →
        hasSub "API_KEY" msg = false →
        classify msg = (.quotaExceeded, quotaMsg)) ∧
    (∀ (env : AnalyzeEnv) (f : Failure) (cs : List NetCall),
        analyzeCore env = (.error f, cs) →
        analyzeFoodWaste env = (.error (classify f.message), cs)) := by
  constructor
  · intro msg h1 h2
    unfold classify
    simp [h1, h2]
  · exact analyzeFoodWaste_of_error

/-- Claim C9 witness: a plain 429 message classifies as quota. -/
theorem c9_quota_witness :
    classify "429 Too Many Requests" = (.quotaExceeded, quotaMsg) :=
  c9_quota_amended.1 "429 Too Many Requests" rfl rfl

theorem primCreateMsg_has_cannot (v : JsonVal) (m : String)
    (hm : primCreateMsg v = some m) : hasSub "Cannot" m = true := by
  cases v with
  | null =>
    cases hm
    exact hasSub_append_left _ _ _ (hasSub_append_left _ _ _ rfl)
  | bool b =>
    cases hm
    exact hasSub_append_left _ _ _ (hasSub_append_left _ _ _ (hasSub_append_left _ _ _
      (hasSub_append_left _ _ _ (hasSub_append_left _ _ _ rfl))))
  | num q =>
    cases hm
    exact hasSub_append_left _ _ _ (hasSub_append_left _ _ _ (hasSub_append_left _ _ _
      (hasSub_append_left _ _ _ (hasSub_append_left _ _ _ rfl))))
  | str s =>
    cases hm
    exact hasSub_append_left _ _ _ (hasSub_append_left _ _ _ (hasSub_append_left _ _ _
      (hasSub_append_left _ _ _ (hasSub_append_left _ _ _ rfl))))
  | arr es => cases hm
  | obj fs => cases hm

/-- Claim C10 counterexample: a response that parses to the bare number
429 does fail, but not with the generic kind the claim names — the
thrown TypeError text embeds the value, its `429` matches the quota
keyword, and the final kind is quota-exceeded. -/
theorem c10_nonobject_counterexample :
    analyzeFoodWaste envNum429 = (.error (.quotaExceeded, quotaMsg),
      [NetCall.catalogQuery, NetCall.generate "gemini-pro-vision"]) ∧
    ErrKind.quotaExceeded ≠ ErrKind.genericFailure := by
  refine ⟨rfl, ?_⟩
  decide

/-- Claim C10 (amended): a successfully extracted value that is a bare
primitive (number, string, boolean or null) never yields a canonical
record: normalization throws the strict-mode TypeError, whose message —
not the parse-failure message — is what the outer catch classifies; the
final kind is the generic analysis failure whenever that TypeError text
matches no classification keyword, but the embedded primitive value can
make it match (for instance the number 429).  The parse oracle is
assumed to reject the empty text, as `JSON.parse` always does, which
keeps the line-138 falsiness guard out of the picture. -/
theorem c10_nonobject_amended (env : AnalyzeEnv) (s content : String) (v : JsonVal) (m : String)
    (hk : ¬ env.apiKey = "") (hr : env.readResult = .ok s)
    (hc : (runLoop env.gen (modelCandidates env.catalog) none).content = some content)
    (hreal : env.parse "" = none)
    (he : extractAnalysis env.parse content = .ok v)
    (hm : primCreateMsg v = some m) :
    normalizeAnalysis v = .error m ∧
    (analyzeFoodWaste env).1 = .error (classify m) ∧
    (∀ (r : JsObject) (cs : List NetCall), ¬ analyzeFoodWaste env = (.ok r, cs)) ∧
    ¬ m = parseFailMsg ∧
    (keywordFree m = true → ¬ m = "" →
      classify m = (.genericFailure, "AI analysis failed: " ++ m)) := by
  have hn : normalizeAnalysis v = .error m := by
    cases v with
    | arr es => cases hm
    | obj fs => cases hm
    | null =>
      cases hm
      rfl
    | bool b =>
      cases hm
      rfl
    | num q =>
      cases hm
      rfl
    | str s2 =>
      cases hm
      rfl
  have hnec : ¬ content = "" := by
    intro hemp
    subst hemp
    unfold extractAnalysis at he
    simp only [show braceSpan "" = none from rfl, hreal] at he
    simp at he
  have hcore := analyzeCore_content env s content hk hr hc hnec
  have htail : analyzeTail env.parse content = .error (Failure.mk m none) := by
    simp only [analyzeTail, he, hn]
  rw [htail] at hcore
  have hfinal := analyzeFoodWaste_of_error env _ _ hcore
  refine ⟨hn, by rw [hfinal], ?_, ?_, ?_⟩
  · intro r cs hcontra
    rw [hfinal] at hcontra
    simp at hcontra
  · intro hcontra
    have h1 := primCreateMsg_has_cannot v m hm
    rw [hcontra] at h1
    revert h1
    decide
  · intro hkf hne
    exact classify_keywordFree m hkf hne

/-- Claim C10 witness: the number-429 response exercises the amended
claim — normalization throws the TypeError naming the value, and the
adapter never returns a record. -/
theorem c10_nonobject_witness :
    normalizeAnalysis (.num 429) = .error (createOnPrimMsg "number" (jsNumToString 429)) ∧
    (analyzeFoodWaste envNum429).1 =
      .error (classify (createOnPrimMsg "number" (jsNumToString 429))) := by
  obtain ⟨h1, h2, h3, h4, h5⟩ := c10_nonobject_amended envNum429 "img" "429" (.num 429)
    (createOnPrimMsg "number" (jsNumToString 429)) (by decide) rfl rfl rfl rfl rfl
  exact ⟨h1, h2⟩

end FW
